import Mathlib

/-!
Verification development for the sleep-hrv-analyzer repository.

The definitions below are a shallow embedding of the Python sources
(`data_processor.py`, `utils/date_utils.py`, `utils/file_parser.py`).
Strings are modelled as `List Char`; Python floats are modelled as exact
rationals `ℚ` (binary floating-point representation effects are not
modelled); Python `None` / raised exceptions are modelled with `Option` /
`Except`.  Definitions named after source functions are direct
translations of those functions; definitions whose doc comment says
"per the spec" restate the specification's wording for comparison.
-/

/-- Python strings are modelled as lists of characters. -/
abbrev Str := List Char

/-- A parsed `datetime.datetime` value.  Python's `datetime` guarantees
`hour ≤ 23`; the model keeps plain naturals and the development never
depends on that bound. -/
structure DateTime where
  year : Nat
  month : Nat
  day : Nat
  hour : Nat
  minute : Nat
  second : Nat
deriving DecidableEq, Repr

/-- Numeric value of a list of decimal digit characters, as Python's
`int()` computes it on a digit string. -/
def natOfDigits (l : Str) : Nat :=
  l.foldl (fun a c => 10 * a + (c.toNat - '0'.toNat)) 0

/-- Embedding of `date_utils.convert_time_slot_to_hour`.  The source
matches the regex `(\d+)\s*(AM|PM)` at the start of the label: a nonempty
run of digits, optional whitespace, then `AM` or `PM`; it converts the
12-hour value to 24-hour form and returns `-1` when the regex does not
match. -/
def convert_time_slot_to_hour (time_slot : Str) : Int :=
  let digits := time_slot.takeWhile Char.isDigit
  let rest := (time_slot.dropWhile Char.isDigit).dropWhile Char.isWhitespace
  if digits.isEmpty then -1
  else if List.isPrefixOf ['A', 'M'] rest then
    let hour := natOfDigits digits
    if hour = 12 then 0 else (hour : Int)
  else if List.isPrefixOf ['P', 'M'] rest then
    let hour := natOfDigits digits
    if hour ≠ 12 then (hour : Int) + 12 else (hour : Int)
  else -1

/-- Python's `round` to a whole number: round half to even. -/
def roundHalfEven (x : ℚ) : Int :=
  let n := ⌊x⌋
  let r := x - (n : ℚ)
  if r < 1 / 2 then n
  else if 1 / 2 < r then n + 1
  else if n % 2 = 0 then n else n + 1

/-- Python's `round(x, 2)` over the exact-rational model. -/
def round2 (x : ℚ) : ℚ := (roundHalfEven (x * 100) : ℚ) / 100

/-- The hour filter of `calculate_daytime_hrv_integral` (source lines
40–43): keep each reading whose slot converts to an hour `h` with
`h >= 0 and h >= wakeup_hour and h < next_bedtime_hour`, in dict
iteration order, paired with its hour. -/
def daytimeData (hrv_data : List (Str × ℚ)) (wakeupHour upperHour : Int) :
    List (Int × ℚ) :=
  hrv_data.filterMap fun p =>
    let h := convert_time_slot_to_hour p.1
    if 0 ≤ h ∧ wakeupHour ≤ h ∧ h < upperHour then some (h, p.2) else none

/-- Stable insertion of a pair into a list sorted by hour. -/
def insertByHour (p : Int × ℚ) : List (Int × ℚ) → List (Int × ℚ)
  | [] => [p]
  | q :: rest => if p.1 ≤ q.1 then p :: q :: rest else q :: insertByHour p rest

/-- Stable sort by hour, matching `daytime_data.sort(key=lambda x: x[0])`
(Python's sort is stable; insertion sort is the same stable sort). -/
def sortByHour : List (Int × ℚ) → List (Int × ℚ)
  | [] => []
  | p :: rest => insertByHour p (sortByHour rest)

/-- One step of the integration loop of `calculate_daytime_hrv_integral`
(source lines 58–73): given the running `(total_integral, total_time)`
and a consecutive pair, skip it when the interval is non-positive,
otherwise add the trapezoid contribution. -/
def trapStep (acc : ℚ × ℚ) (pq : (Int × ℚ) × (Int × ℚ)) : ℚ × ℚ :=
  let dt : Int := pq.2.1 - pq.1.1
  if dt ≤ 0 then acc
  else (acc.1 + (pq.1.2 + pq.2.2) / 2 * (dt : ℚ), acc.2 + (dt : ℚ))

/-- The integration loop `for i in range(len(daytime_data) - 1)` walks the
consecutive pairs of the sorted list and folds `trapStep` from `(0, 0)`. -/
def trapezoid (l : List (Int × ℚ)) : ℚ × ℚ :=
  (l.zip l.tail).foldl trapStep (0, 0)

/-- The upper bound of the daytime window: `next_bedtime_hour` defaults to
`23` and is replaced by the next bedtime's hour when one is present
(source lines 31–35). -/
def upperOf : Option DateTime → Int
  | some n => (n.hour : Int)
  | none => 23

/-- The selected readings of `calculate_daytime_hrv_integral`, sorted by
hour: the contents of its local `daytime_data` after the sort. -/
def sortedSelection (hrv_data : List (Str × ℚ)) (w : DateTime)
    (next : Option DateTime) : List (Int × ℚ) :=
  sortByHour (daytimeData hrv_data (w.hour : Int) (upperOf next))

/-- Embedding of `data_processor.calculate_daytime_hrv_integral`.  The
HRV dict is an association list in insertion order; `None` arguments and
the `None` result are `Option`.  Mirrors the source: empty data or a
missing wake time give `none`; fewer than two selected readings return
the single raw value or `none`; otherwise the trapezoidal average,
rounded to two decimals, when the accumulated width is positive. -/
def calculate_daytime_hrv_integral (hrv_data : List (Str × ℚ))
    (wakeup_datetime : Option DateTime)
    (next_bedtime_datetime : Option DateTime) : Option ℚ :=
  match wakeup_datetime with
  | none => none
  | some w =>
    if hrv_data.isEmpty then none
    else
      match sortedSelection hrv_data w next_bedtime_datetime with
      | [] => none
      | [p] => some p.2
      | p :: q :: rest =>
        let tp := trapezoid (p :: q :: rest)
        if 0 < tp.2 then some (round2 (tp.1 / tp.2)) else none

/-- Per the spec (§4.2 step 7): the integral accumulated over adjacent
pairs, `(v_i + v_{i+1}) / 2 * (h_{i+1} - h_i)`, skipping segments of
non-positive width. -/
def specIntegral : List (Int × ℚ) → ℚ
  | p :: q :: rest =>
    (if q.1 - p.1 ≤ 0 then 0 else (p.2 + q.2) / 2 * ((q.1 - p.1 : Int) : ℚ))
      + specIntegral (q :: rest)
  | _ => 0

/-- Per the spec (§4.2 step 7): the total width accumulated over adjacent
pairs, skipping segments of non-positive width. -/
def specWidth : List (Int × ℚ) → ℚ
  | p :: q :: rest =>
    (if q.1 - p.1 ≤ 0 then 0 else ((q.1 - p.1 : Int) : ℚ)) + specWidth (q :: rest)
  | _ => 0

/-- Python's `str.split(sep)` for a nonempty separator: accumulator-based
scan emitting the chunk each time the separator is a prefix of the
remaining input.  The extra fuel argument (always at least the input
length, so the fuel-exhausted arm is unreachable) makes the recursion
structural. -/
def splitSepAux (sep : Str) : Nat → Str → Str → List Str
  | _, [], acc => [acc.reverse]
  | 0, c :: rest, acc => [acc.reverse ++ c :: rest]
  | fuel + 1, c :: rest, acc =>
    if List.isPrefixOf sep (c :: rest) then
      acc.reverse :: splitSepAux sep fuel (rest.drop (sep.length - 1)) []
    else
      splitSepAux sep fuel rest (c :: acc)

/-- Python's `str.split(sep)` for a nonempty separator. -/
def splitSep (sep l : Str) : List Str := splitSepAux sep l.length l []

/-- Python's substring test `sep in l`. -/
def hasSub (sep : Str) : Str → Bool
  | [] => List.isPrefixOf sep []
  | c :: rest => List.isPrefixOf sep (c :: rest) || hasSub sep rest

/-- Python's `str.strip()`: drop leading and trailing whitespace. -/
def pyStrip (l : Str) : Str :=
  ((l.dropWhile Char.isWhitespace).reverse.dropWhile Char.isWhitespace).reverse

/-- The leading sign of a Python numeric literal. -/
def splitSign (s : Str) : ℚ × Str :=
  match s with
  | c :: r => if c = '-' then (-1, r) else if c = '+' then (1, r) else (1, c :: r)
  | [] => (1, [])

/-- Python's `float()` on the decimal literals that occur in HRV cells:
an optional sign, then digits with an optional fractional part, at least
one digit overall.  (Whitespace padding, exponents, underscores, `inf`
and `nan`, which `float()` also accepts, do not occur in this format and
are not modelled.) -/
def parseFloat (s : Str) : Option ℚ :=
  let p := splitSign s
  let ip := p.2.takeWhile Char.isDigit
  let rest2 := p.2.dropWhile Char.isDigit
  match rest2 with
  | [] => if ip.isEmpty then none else some (p.1 * (natOfDigits ip : ℚ))
  | c :: rest3 =>
    if c = '.' then
      let fp := rest3.takeWhile Char.isDigit
      if (rest3.dropWhile Char.isDigit).isEmpty && !(ip.isEmpty && fp.isEmpty) then
        some (p.1 * ((natOfDigits ip : ℚ) + (natOfDigits fp : ℚ) / (10 : ℚ) ^ fp.length))
      else none
    else none

/-- The separator `" - "` of HRV range cells. -/
def rangeSep : Str := [' ', '-', ' ']

/-- Embedding of the per-cell value handling of
`file_parser.parse_hrv_file` (source lines 103–117): a cell containing
`" - "` is split on it and, when exactly two parts both parse as numbers,
stored as their midpoint; any other cell is stored as its parsed number;
parse failures store nothing. -/
def parseHrvCell (value : Str) : Option ℚ :=
  if hasSub rangeSep value then
    match splitSep rangeSep value with
    | [a, b] =>
      match parseFloat a, parseFloat b with
      | some x, some y => some ((x + y) / 2)
      | _, _ => none
    | _ => none
  else
    parseFloat value

/-- Python dict assignment `d[k] = v` on an insertion-ordered association
list: an existing key keeps its position and gets the new value, a new
key is appended. -/
def dictInsert {α : Type} (k : Str) (v : α) : List (Str × α) → List (Str × α)
  | [] => [(k, v)]
  | p :: rest => if p.1 = k then (k, v) :: rest else p :: dictInsert k v rest

/-- The inner loop of `parse_hrv_file` over one data row (source lines
99–117): for each value with index `j`, when a `j`-th slot exists and the
stripped value is nonempty, parse the cell and store it under the slot
label. -/
def buildDateHrvAux (slots : List Str) : Nat → List Str → List (Str × ℚ) →
    List (Str × ℚ)
  | _, [], d => d
  | j, v :: vs, d =>
    let d1 :=
      match slots.get? j with
      | some slot =>
        if (pyStrip v).isEmpty then d
        else
          match parseHrvCell v with
          | some x => dictInsert slot x d
          | none => d
      | none => d
    buildDateHrvAux slots (j + 1) vs d1

/-- The per-row HRV dict `date_hrv` built by `parse_hrv_file`. -/
def buildDateHrv (slots : List Str) (values : List Str) : List (Str × ℚ) :=
  buildDateHrvAux slots 0 values []

/-- One data line of `parse_hrv_file` (source lines 89–119): strip the
line, skip it when blank, drop double quotes, split on commas, and store
the row dict under the stripped leading date field. -/
def parseHrvLine (time_slots : List Str) (acc : List (Str × List (Str × ℚ)))
    (line : Str) : List (Str × List (Str × ℚ)) :=
  let l := pyStrip line
  if l.isEmpty then acc
  else
    match splitSep [','] (l.filter (fun c => c ≠ '"')) with
    | [] => acc
    | v0 :: vrest => dictInsert (pyStrip v0) (buildDateHrv time_slots vrest) acc

/-- Embedding of `file_parser.parse_hrv_file` over the file's lines: a
file with fewer than two lines is a fatal format error; otherwise the
second line (stripped, split on commas, first field dropped, each label
stripped) gives the time-slot labels, and every further line contributes
one date's reading set. -/
def parse_hrv_file (lines : List Str) : Except Str (List (Str × List (Str × ℚ))) :=
  match lines with
  | _ :: l1 :: rest =>
    let time_slots := ((splitSep [','] (pyStrip l1)).tail).map pyStrip
    Except.ok (rest.foldl (parseHrvLine time_slots) [])
  | _ => Except.error "HRV file format is invalid: header line is missing".data

/-- Embedding of `date_utils.format_time_part`: split on single spaces
and return the second part when there is one, the whole string
otherwise. -/
def format_time_part (datetime_str : Str) : Str :=
  match splitSep [' '] datetime_str with
  | _ :: p1 :: _ => p1
  | _ => datetime_str

/-- `strftime` digit field: decimal digits zero-padded to a width. -/
def padZero (w : Nat) (l : Str) : Str :=
  List.replicate (w - l.length) '0' ++ l

/-- `dt.strftime(YYYY/MM/DD pattern)`: the wake-date key format used both
by `parse_hrv_file` dates and by the processing loop's lookup. -/
def formatYMD (dt : DateTime) : Str :=
  padZero 4 (Nat.toDigits 10 dt.year) ++ '/' ::
    (padZero 2 (Nat.toDigits 10 dt.month) ++ '/' :: padZero 2 (Nat.toDigits 10 dt.day))

/-- Embedding of `date_utils.get_date_string` at its default format:
empty string for `None`, otherwise the `YYYY/MM/DD` rendering. -/
def get_date_string : Option DateTime → Str
  | none => []
  | some dt => formatYMD dt

/-- A row of the DataFrame built by `file_parser.read_autosleep_data`:
the raw bedtime and wake strings, the optional pass-through columns, the
parsed timestamps, and the `Date` column. -/
structure SleepRecord where
  Bedtime : Str
  Wakeup : Str
  AvgBreathingRate : Option Str
  SleepDuration : Option Str
  Bedtime_dt : Option DateTime
  Wakeup_dt : Option DateTime
  Date : Str
deriving DecidableEq, Repr

/-- A row of the result DataFrame of `process_sleep_hrv_data`.  The HRV
column is kept as the optional number; the source renders it as
`str(value)` or the `N/A` sentinel, a presentation step outside the
model. -/
structure ResultRow where
  Date : Str
  Bedtime : Str
  Wakeup : Str
  DaytimeHrvAvg : Option ℚ
  AvgBreathingRate : Str
  SleepDuration : Str
deriving DecidableEq, Repr

/-- The mandatory sleep-file column label for bedtime. -/
def bedtimeCol : Str := "就寝時間".data

/-- The mandatory sleep-file column label for wake time. -/
def wakeupCol : Str := "起床時間".data

/-- The optional sleep-file column label for average breathing rate. -/
def breathingCol : Str := "平均呼吸".data

/-- The optional sleep-file column label for sleep duration. -/
def durationCol : Str := "睡眠".data

/-- The `N/A` sentinel used for missing pass-through values. -/
def strNA : Str := "N/A".data

/-- A cell of a delimited row, addressed by column label: `none` when the
column is absent (or the row is short). -/
def getCell (cols : List Str) (row : List Str) (c : Str) : Option Str :=
  match cols.findIdx? (fun x => x = c) with
  | some i => row.get? i
  | none => none

/-- A parsed sleep CSV: the header labels and the data rows, as
`pd.read_csv` hands them to `read_autosleep_data` (byte decoding is
outside the model). -/
structure SleepCsv where
  cols : List Str
  rows : List (List Str)
deriving Repr

/-- The per-row record construction of `read_autosleep_data` (source
lines 50–60): parse the bedtime and wake cells with the given
text-to-datetime primitive (`parse_japanese_datetime`, a boundary
collaborator here abstracted as a parameter) and derive the `Date`
column from the parsed wake timestamp. -/
def mkSleepRecord (parse : Str → Option DateTime) (cols : List Str)
    (row : List Str) : SleepRecord :=
  let bed := (getCell cols row bedtimeCol).getD []
  let wake := (getCell cols row wakeupCol).getD []
  let wdt := parse wake
  { Bedtime := bed
    Wakeup := wake
    AvgBreathingRate := getCell cols row breathingCol
    SleepDuration := getCell cols row durationCol
    Bedtime_dt := parse bed
    Wakeup_dt := wdt
    Date := get_date_string wdt }

/-- The record list built by `read_autosleep_data` once the mandatory
columns are known to exist. -/
def read_autosleep_rows (parse : Str → Option DateTime) (cols : List Str)
    (rows : List (List Str)) : List SleepRecord :=
  rows.map (mkSleepRecord parse cols)

/-- The required-column list of `read_autosleep_data`. -/
def requiredColumns : List Str := [bedtimeCol, wakeupCol, breathingCol, durationCol]

/-- Embedding of `file_parser.read_autosleep_data` (source lines 41–62):
restrict to the required columns that exist, fail when either mandatory
column is missing, otherwise build one record per row. -/
def read_autosleep_data (parse : Str → Option DateTime) (csv : SleepCsv) :
    Except Str (List SleepRecord) :=
  let existing := requiredColumns.filter (fun c => decide (c ∈ csv.cols))
  if bedtimeCol ∈ existing ∧ wakeupCol ∈ existing then
    Except.ok (read_autosleep_rows parse csv.cols csv.rows)
  else
    Except.error "required column Bedtime or Wakeup is missing from the CSV file".data

/-- `hrv_data.get(wakeup_date, dict())`: the reading set stored under a
date key, or the empty set when the date is absent. -/
def lookupDate (hrv : List (Str × List (Str × ℚ))) (d : Str) : List (Str × ℚ) :=
  match hrv.find? (fun p => p.1 = d) with
  | some p => p.2
  | none => []

/-- The `iloc[i + 1]` lookahead of `process_sleep_hrv_data` (source lines
139–143): the next record's parsed bedtime when a next record exists. -/
def nextBedtimeOf : List SleepRecord → Option DateTime
  | [] => none
  | r2 :: _ => r2.Bedtime_dt

/-- The result row that `process_sleep_hrv_data` appends for a record
whose timestamps both parsed (source lines 135–157), with `w` the parsed
wake timestamp: the HRV average is computed from the reading set looked
up under the wake date. -/
def emitRow (hrv : List (Str × List (Str × ℚ))) (r : SleepRecord)
    (nextB : Option DateTime) (w : DateTime) : ResultRow :=
  { Date := r.Date
    Bedtime := format_time_part r.Bedtime
    Wakeup := format_time_part r.Wakeup
    DaytimeHrvAvg :=
      calculate_daytime_hrv_integral (lookupDate hrv (formatYMD w)) (some w) nextB
    AvgBreathingRate := r.AvgBreathingRate.getD strNA
    SleepDuration := r.SleepDuration.getD strNA }

/-- Embedding of the record loop of `data_processor.process_sleep_hrv_data`
(source lines 121–158): records whose bedtime or wake timestamp failed to
parse are skipped, every other record contributes one row, and each
record sees the following record's parsed bedtime as lookahead. -/
def process_sleep_hrv_data (sleep : List SleepRecord)
    (hrv : List (Str × List (Str × ℚ))) : List ResultRow :=
  match sleep with
  | [] => []
  | r :: rest =>
    match r.Bedtime_dt, r.Wakeup_dt with
    | some _, some w => emitRow hrv r (nextBedtimeOf rest) w ::
        process_sleep_hrv_data rest hrv
    | _, _ => process_sleep_hrv_data rest hrv

/-- Each record paired with its lookahead: the linearised form of the
`iloc[i + 1]` peek. -/
def withNext : List SleepRecord → List (SleepRecord × Option DateTime)
  | [] => []
  | r :: rest => (r, nextBedtimeOf rest) :: withNext rest

/-- The full pipeline of `process_sleep_hrv_data` including the two file
loads (source lines 96–163): either load error aborts before any result
row exists. -/
def processFiles (parse : Str → Option DateTime) (csv : SleepCsv)
    (hrvLines : List Str) : Except Str (List ResultRow) :=
  match read_autosleep_data parse csv with
  | Except.error e => Except.error e
  | Except.ok sleep =>
    match parse_hrv_file hrvLines with
    | Except.error e => Except.error e
    | Except.ok hrv => Except.ok (process_sleep_hrv_data sleep hrv)

/-- The source's accumulator loop over consecutive pairs computes exactly
the spec's segment sums. -/
theorem trap_foldl : ∀ (l : List (Int × ℚ)) (acc : ℚ × ℚ),
    (l.zip l.tail).foldl trapStep acc = (acc.1 + specIntegral l, acc.2 + specWidth l)
  | [], acc => by simp [specIntegral, specWidth]
  | [p], acc => by simp [specIntegral, specWidth]
  | p :: q :: rest, acc => by
    have ih := trap_foldl (q :: rest) (trapStep acc (p, q))
    simp only [List.tail_cons, List.zip_cons_cons, List.foldl_cons] at ih ⊢
    rw [ih]
    simp only [specIntegral, specWidth, trapStep]
    by_cases h : q.1 - p.1 ≤ 0 <;>
      simp only [h, if_true, if_false, reduceIte] <;>
      exact Prod.ext (by ring) (by ring)

/-- The source loop's final accumulator pair. -/
theorem trapezoid_eq_spec (l : List (Int × ℚ)) :
    trapezoid l = (specIntegral l, specWidth l) := by
  unfold trapezoid
  rw [trap_foldl]
  simp

/-- C1: whenever at least two (hour, value) pairs are selected (after the
ascending sort by hour), `calculate_daytime_hrv_integral` returns the
trapezoidal time-weighted mean of the spec: the segment-wise integral
divided by the accumulated width, rounded to two decimals, when that
width is positive (and is absent otherwise). -/
theorem c1_trapezoidal_mean (hrv_data : List (Str × ℚ)) (w : DateTime)
    (next : Option DateTime)
    (h2 : 2 ≤ (sortedSelection hrv_data w next).length) :
    calculate_daytime_hrv_integral hrv_data (some w) next =
      if 0 < specWidth (sortedSelection hrv_data w next) then
        some (round2 (specIntegral (sortedSelection hrv_data w next) /
          specWidth (sortedSelection hrv_data w next)))
      else none := by
  have hne : hrv_data.isEmpty = false := by
    cases hh : hrv_data with
    | nil =>
      subst hh
      simp [sortedSelection, daytimeData, sortByHour] at h2
    | cons a l => rfl
  rcases hsel : sortedSelection hrv_data w next with _ | ⟨p, _ | ⟨q, rest⟩⟩
  · rw [hsel] at h2; simp at h2
  · rw [hsel] at h2; simp at h2
  · simp only [calculate_daytime_hrv_integral, hne, Bool.false_eq_true,
      if_false, hsel, trapezoid_eq_spec]


/-- Half-even rounding is the identity on integers. -/
theorem roundHalfEven_intCast (n : ℤ) : roundHalfEven (n : ℚ) = n := by
  unfold roundHalfEven
  rw [Int.floor_intCast]
  norm_num

/-- Evaluation rule for `round2` when the scaled value is an integer. -/
theorem round2_eq_int (x : ℚ) (n : ℤ) (h : x * 100 = (n : ℚ)) :
    round2 x = (n : ℚ) / 100 := by
  unfold round2
  rw [h, roundHalfEven_intCast]

/-- Witness for C1 at the spec's end-to-end example: readings at hours
6, 9 and 12 with values 30, 35 and 40, wake hour 6 and no next bedtime
give 35. -/
theorem c1_trapezoidal_mean_witness :
    calculate_daytime_hrv_integral
      [("6 AM".data, (30 : ℚ)), ("9 AM".data, 35), ("12 PM".data, 40)]
      (some ⟨2025, 3, 2, 6, 0, 0⟩) none = some 35 := by
  rw [c1_trapezoidal_mean _ _ _ (by decide)]
  have hsel : sortedSelection
      [("6 AM".data, (30 : ℚ)), ("9 AM".data, 35), ("12 PM".data, 40)]
      ⟨2025, 3, 2, 6, 0, 0⟩ none = [((6 : Int), (30 : ℚ)), (9, 35), (12, 40)] := by
    decide
  rw [hsel]
  have hw : specWidth [((6 : Int), (30 : ℚ)), (9, 35), (12, 40)] = 6 := by
    norm_num [specWidth]
  have hi : specIntegral [((6 : Int), (30 : ℚ)), (9, 35), (12, 40)] = 210 := by
    norm_num [specIntegral]
  rw [hw, hi]
  norm_num
  rw [round2_eq_int 35 3500 (by norm_num)]
  norm_num

/-- C4: with exactly one selected reading the function returns that
reading's raw value (no rounding, no division), and with no selected
reading it returns `none` rather than failing. -/
theorem c4_single_and_empty (hrv_data : List (Str × ℚ)) (w : DateTime)
    (next : Option DateTime) :
    (∀ p : Int × ℚ, sortedSelection hrv_data w next = [p] →
      calculate_daytime_hrv_integral hrv_data (some w) next = some p.2)
    ∧ (sortedSelection hrv_data w next = [] →
      calculate_daytime_hrv_integral hrv_data (some w) next = none) := by
  constructor
  · intro p hsel
    cases hh : hrv_data with
    | nil =>
      subst hh
      simp [sortedSelection, daytimeData, sortByHour] at hsel
    | cons a l =>
      subst hh
      simp only [calculate_daytime_hrv_integral, List.isEmpty_cons,
        Bool.false_eq_true, if_false, hsel]
  · intro hsel
    cases hh : hrv_data with
    | nil => subst hh; rfl
    | cons a l =>
      subst hh
      simp only [calculate_daytime_hrv_integral, List.isEmpty_cons,
        Bool.false_eq_true, if_false, hsel]

/-- Witness for C4 at the spec's examples: a single reading at hour 14
with wake hour 10 and next bedtime hour 22 passes through as 20; a lone
reading at hour 5 with wake hour 8 leaves the window empty and the result
absent. -/
theorem c4_single_and_empty_witness :
    calculate_daytime_hrv_integral [("2 PM".data, (20 : ℚ))]
      (some ⟨2025, 3, 2, 10, 0, 0⟩) (some ⟨2025, 3, 2, 22, 0, 0⟩) = some 20
    ∧ calculate_daytime_hrv_integral [("5 AM".data, (10 : ℚ))]
      (some ⟨2025, 3, 2, 8, 0, 0⟩) none = none :=
  ⟨(c4_single_and_empty _ _ _).1 ((14 : Int), (20 : ℚ)) (by decide),
   (c4_single_and_empty _ _ _).2 (by decide)⟩

/-- Every selected pair's hour satisfies the source's filter bounds. -/
theorem daytimeData_mem_bounds (hrv_data : List (Str × ℚ)) (lo hi : Int)
    (p : Int × ℚ) (hp : p ∈ daytimeData hrv_data lo hi) :
    0 ≤ p.1 ∧ lo ≤ p.1 ∧ p.1 < hi := by
  simp only [daytimeData, List.mem_filterMap] at hp
  obtain ⟨a, _, hfa⟩ := hp
  by_cases hc : 0 ≤ convert_time_slot_to_hour a.1
      ∧ lo ≤ convert_time_slot_to_hour a.1 ∧ convert_time_slot_to_hour a.1 < hi
  · rw [if_pos hc] at hfa
    have heq : convert_time_slot_to_hour a.1 = p.1 :=
      congrArg Prod.fst (Option.some.inj hfa)
    rw [heq] at hc
    exact hc
  · rw [if_neg hc] at hfa
    exact absurd hfa (by simp)

/-- C2 fails on the code: with no next bedtime the upper bound is hour 23
exclusive, so a bucket-23 reading whose hour is at or above the wake hour
is not selected and the result is absent rather than that reading's
value. -/
theorem c2_counterexample :
    convert_time_slot_to_hour ("11 PM".data) = 23
    ∧ ((23 : Int), (50 : ℚ)) ∉ daytimeData [("11 PM".data, (50 : ℚ))] 6 (upperOf none)
    ∧ calculate_daytime_hrv_integral [("11 PM".data, (50 : ℚ))]
        (some ⟨2025, 3, 2, 6, 0, 0⟩) none = none := by
  decide

/-- C2 amended: with no next-bedtime timestamp the window's upper bound
defaults to hour 23 exclusive — a reading in a bucket `h` is selected
exactly when `wakeHour ≤ h < 23` (and the bucket parsed), so bucket 23
and anything beyond are excluded. -/
theorem c2_amended (hrv_data : List (Str × ℚ)) (w : DateTime) (s : Str) (v : ℚ)
    (hs : (s, v) ∈ hrv_data) :
    ((convert_time_slot_to_hour s, v) ∈
        daytimeData hrv_data (w.hour : Int) (upperOf none))
      ↔ (0 ≤ convert_time_slot_to_hour s
          ∧ (w.hour : Int) ≤ convert_time_slot_to_hour s
          ∧ convert_time_slot_to_hour s < 23) := by
  constructor
  · intro hmem
    have hb := daytimeData_mem_bounds _ _ _ _ hmem
    exact ⟨hb.1, hb.2.1, by simpa [upperOf] using hb.2.2⟩
  · intro hcond
    simp only [daytimeData, List.mem_filterMap]
    refine ⟨(s, v), hs, ?_⟩
    rw [if_pos]
    exact ⟨hcond.1, hcond.2.1, by simpa [upperOf] using hcond.2.2⟩

/-- Witness for the amended C2: a bucket-10 reading with wake hour 6 and
no next bedtime. -/
theorem c2_amended_witness :
    ((convert_time_slot_to_hour ("10 AM".data), (42 : ℚ)) ∈
        daytimeData [("10 AM".data, (42 : ℚ))]
          (((⟨2025, 3, 2, 6, 0, 0⟩ : DateTime).hour : Int)) (upperOf none))
      ↔ (0 ≤ convert_time_slot_to_hour ("10 AM".data)
          ∧ (((⟨2025, 3, 2, 6, 0, 0⟩ : DateTime).hour : Int))
              ≤ convert_time_slot_to_hour ("10 AM".data)
          ∧ convert_time_slot_to_hour ("10 AM".data) < 23) :=
  c2_amended [("10 AM".data, (42 : ℚ))] ⟨2025, 3, 2, 6, 0, 0⟩ ("10 AM".data) 42
    (by decide)

/-- C3 fails on the code in the degenerate case: when the wake hour
equals the upper hour, a reading exactly at the wake hour is excluded,
although the claim asserts unconditional inclusion at the wake hour. -/
theorem c3_counterexample :
    convert_time_slot_to_hour ("5 AM".data) = 5
    ∧ ((5 : Int), (10 : ℚ)) ∉ daytimeData [("5 AM".data, (10 : ℚ))] 5
        (upperOf (some ⟨2025, 3, 3, 5, 0, 0⟩))
    ∧ calculate_daytime_hrv_integral [("5 AM".data, (10 : ℚ))]
        (some ⟨2025, 3, 2, 5, 0, 0⟩) (some ⟨2025, 3, 3, 5, 0, 0⟩) = none := by
  decide

/-- C3 amended: the selection window is half-open — a reading whose
bucket hour equals the upper hour is always excluded, and a reading whose
bucket hour equals the wake hour is included provided the wake hour is
below the upper hour. -/
theorem c3_amended (hrv_data : List (Str × ℚ)) (w n : DateTime) (s : Str) (v : ℚ)
    (hs : (s, v) ∈ hrv_data) :
    (convert_time_slot_to_hour s = (n.hour : Int) →
      (convert_time_slot_to_hour s, v) ∉
        daytimeData hrv_data (w.hour : Int) (upperOf (some n)))
    ∧ (convert_time_slot_to_hour s = (w.hour : Int) →
      (w.hour : Int) < (n.hour : Int) →
      (convert_time_slot_to_hour s, v) ∈
        daytimeData hrv_data (w.hour : Int) (upperOf (some n))) := by
  constructor
  · intro hupper hmem
    have hb := daytimeData_mem_bounds _ _ _ _ hmem
    rw [hupper] at hb
    simp only [upperOf] at hb
    omega
  · intro hwake hlt
    simp only [daytimeData, List.mem_filterMap]
    refine ⟨(s, v), hs, ?_⟩
    rw [if_pos]
    refine ⟨?_, ?_, ?_⟩
    · rw [hwake]; exact Int.natCast_nonneg _
    · rw [hwake]
    · rw [hwake]; simpa [upperOf] using hlt

/-- Witness for the amended C3: with wake hour 9 and next-bedtime hour
21, a bucket-21 reading is excluded and a bucket-9 reading is included. -/
theorem c3_amended_witness :
    ((convert_time_slot_to_hour ("9 PM".data), (7 : ℚ)) ∉
      daytimeData [("9 AM".data, (41 : ℚ)), ("9 PM".data, (7 : ℚ))]
        (((⟨2025, 3, 2, 9, 0, 0⟩ : DateTime).hour : Int))
        (upperOf (some ⟨2025, 3, 2, 21, 0, 0⟩)))
    ∧ ((convert_time_slot_to_hour ("9 AM".data), (41 : ℚ)) ∈
      daytimeData [("9 AM".data, (41 : ℚ)), ("9 PM".data, (7 : ℚ))]
        (((⟨2025, 3, 2, 9, 0, 0⟩ : DateTime).hour : Int))
        (upperOf (some ⟨2025, 3, 2, 21, 0, 0⟩))) :=
  ⟨(c3_amended [("9 AM".data, (41 : ℚ)), ("9 PM".data, (7 : ℚ))]
      ⟨2025, 3, 2, 9, 0, 0⟩ ⟨2025, 3, 2, 21, 0, 0⟩ ("9 PM".data) 7
      (by decide)).1 (by decide),
   (c3_amended [("9 AM".data, (41 : ℚ)), ("9 PM".data, (7 : ℚ))]
      ⟨2025, 3, 2, 9, 0, 0⟩ ⟨2025, 3, 2, 21, 0, 0⟩ ("9 AM".data) 41
      (by decide)).2 (by decide) (by decide)⟩

/-- C6 fails on the code: `convert_time_slot_to_hour` does return hours
outside `[0, 23]` — the label `25 AM` converts to 25. -/
theorem c6_counterexample :
    convert_time_slot_to_hour ("25 AM".data) = 25
    ∧ ¬(convert_time_slot_to_hour ("25 AM".data) ≤ 23) := by
  decide

/-- C6 amended: `convert_time_slot_to_hour` returns `-1` on parse failure
(its only negative value); when the label's leading number is at most 12
— the whole 12-hour clock range that well-formed labels carry — the
result is `-1` or an hour in `[0, 23]`; and no pair with a negative hour
is ever selected into the daytime window. -/
theorem c6_amended (s : Str) (hrv_data : List (Str × ℚ)) (lo hi : Int) :
    (convert_time_slot_to_hour s < 0 → convert_time_slot_to_hour s = -1)
    ∧ (natOfDigits (s.takeWhile Char.isDigit) ≤ 12 →
        convert_time_slot_to_hour s = -1
        ∨ (0 ≤ convert_time_slot_to_hour s ∧ convert_time_slot_to_hour s ≤ 23))
    ∧ (∀ p ∈ daytimeData hrv_data lo hi, 0 ≤ p.1) := by
  refine ⟨?_, ?_, ?_⟩
  · simp only [convert_time_slot_to_hour]
    split_ifs <;> intro h <;> omega
  · intro hle
    simp only [convert_time_slot_to_hour]
    split_ifs <;> omega
  · intro p hp
    exact (daytimeData_mem_bounds _ _ _ _ hp).1

/-- Witness for the amended C6: an unparsable label converts to `-1`, and
a well-formed label stays inside `[0, 23]`. -/
theorem c6_amended_witness :
    convert_time_slot_to_hour ("xx".data) = -1
    ∧ (convert_time_slot_to_hour ("5 AM".data) = -1
        ∨ (0 ≤ convert_time_slot_to_hour ("5 AM".data)
            ∧ convert_time_slot_to_hour ("5 AM".data) ≤ 23)) :=
  ⟨(c6_amended ("xx".data) [] 0 0).1 (by decide),
   (c6_amended ("5 AM".data) [] 0 0).2.1 (by decide)⟩

/-- C8: the processing loop is exactly an order-preserving traversal that
skips every record whose bedtime or wake timestamp failed to parse and
emits one row for each remaining record — no re-sorting, and processing
continues past each skipped record. -/
theorem c8_skip_and_order (sleep : List SleepRecord)
    (hrv : List (Str × List (Str × ℚ))) :
    process_sleep_hrv_data sleep hrv
      = (withNext sleep).filterMap (fun p =>
          match p.1.Bedtime_dt, p.1.Wakeup_dt with
          | some _, some w => some (emitRow hrv p.1 p.2 w)
          | _, _ => none) := by
  induction sleep with
  | nil => rfl
  | cons r rest ih =>
    simp only [process_sleep_hrv_data, withNext, List.filterMap_cons]
    rcases hb : r.Bedtime_dt with _ | b <;> rcases hw : r.Wakeup_dt with _ | w <;>
      simp [hb, hw, ih]

/-- C10: when the next record exists but its bedtime failed to parse, the
current record's row is computed with an absent next-bedtime argument —
identical to the row it would get as the last record — and its HRV value
is the no-next-bedtime (default upper bound) computation. -/
theorem c10_next_bedtime_unparsed (hrv : List (Str × List (Str × ℚ)))
    (r r2 : SleepRecord) (rest : List SleepRecord) (b w : DateTime)
    (hb : r.Bedtime_dt = some b) (hw : r.Wakeup_dt = some w)
    (h2 : r2.Bedtime_dt = none) :
    process_sleep_hrv_data (r :: r2 :: rest) hrv
      = emitRow hrv r none w :: process_sleep_hrv_data (r2 :: rest) hrv
    ∧ process_sleep_hrv_data [r] hrv = [emitRow hrv r none w]
    ∧ (emitRow hrv r none w).DaytimeHrvAvg
      = calculate_daytime_hrv_integral (lookupDate hrv (formatYMD w)) (some w) none := by
  refine ⟨?_, ?_, rfl⟩
  · simp only [process_sleep_hrv_data, nextBedtimeOf, hb, hw, h2]
  · simp only [process_sleep_hrv_data, nextBedtimeOf, hb, hw]

/-- Witness for C10: a two-record sequence whose second record has an
unparsed bedtime. -/
theorem c10_next_bedtime_unparsed_witness :
    process_sleep_hrv_data
      [⟨"b".data, "w".data, none, none, some ⟨2025, 3, 1, 22, 0, 0⟩,
          some ⟨2025, 3, 2, 6, 0, 0⟩, "2025/03/02".data⟩,
        ⟨"b2".data, "w2".data, none, none, none, some ⟨2025, 3, 3, 7, 0, 0⟩,
          "2025/03/03".data⟩] []
      = emitRow [] ⟨"b".data, "w".data, none, none, some ⟨2025, 3, 1, 22, 0, 0⟩,
          some ⟨2025, 3, 2, 6, 0, 0⟩, "2025/03/02".data⟩ none ⟨2025, 3, 2, 6, 0, 0⟩ ::
        process_sleep_hrv_data
          [⟨"b2".data, "w2".data, none, none, none, some ⟨2025, 3, 3, 7, 0, 0⟩,
            "2025/03/03".data⟩] []
    ∧ process_sleep_hrv_data
        [⟨"b".data, "w".data, none, none, some ⟨2025, 3, 1, 22, 0, 0⟩,
          some ⟨2025, 3, 2, 6, 0, 0⟩, "2025/03/02".data⟩] []
      = [emitRow [] ⟨"b".data, "w".data, none, none, some ⟨2025, 3, 1, 22, 0, 0⟩,
          some ⟨2025, 3, 2, 6, 0, 0⟩, "2025/03/02".data⟩ none ⟨2025, 3, 2, 6, 0, 0⟩]
    ∧ (emitRow [] ⟨"b".data, "w".data, none, none, some ⟨2025, 3, 1, 22, 0, 0⟩,
          some ⟨2025, 3, 2, 6, 0, 0⟩, "2025/03/02".data⟩ none
        ⟨2025, 3, 2, 6, 0, 0⟩).DaytimeHrvAvg
      = calculate_daytime_hrv_integral
          (lookupDate [] (formatYMD ⟨2025, 3, 2, 6, 0, 0⟩))
          (some ⟨2025, 3, 2, 6, 0, 0⟩) none := by
  have h := c10_next_bedtime_unparsed []
    ⟨"b".data, "w".data, none, none, some ⟨2025, 3, 1, 22, 0, 0⟩,
      some ⟨2025, 3, 2, 6, 0, 0⟩, "2025/03/02".data⟩
    ⟨"b2".data, "w2".data, none, none, none, some ⟨2025, 3, 3, 7, 0, 0⟩,
      "2025/03/03".data⟩ [] ⟨2025, 3, 1, 22, 0, 0⟩ ⟨2025, 3, 2, 6, 0, 0⟩
    rfl rfl rfl
  exact ⟨h.1, h.2.1, h.2.2⟩

/-- C9: loading fails fatally when the source format is unrecognizable —
a sleep CSV missing the mandatory bedtime or wake-time column makes
`read_autosleep_data` (and hence the whole pipeline) return an error, and
an HRV file with fewer than 2 lines makes `parse_hrv_file` (and hence the
whole pipeline) return an error, before any result row exists. -/
theorem c9_fatal_load_errors (parse : Str → Option DateTime) (csv : SleepCsv)
    (lines : List Str) :
    ((bedtimeCol ∉ csv.cols ∨ wakeupCol ∉ csv.cols) →
      (∃ e, read_autosleep_data parse csv = Except.error e)
      ∧ (∃ e, processFiles parse csv lines = Except.error e))
    ∧ (lines.length < 2 →
      (∃ e, parse_hrv_file lines = Except.error e)
      ∧ (∃ e, processFiles parse csv lines = Except.error e)) := by
  constructor
  · intro hmiss
    have hguard : ¬(bedtimeCol ∈ requiredColumns.filter (fun c => decide (c ∈ csv.cols))
        ∧ wakeupCol ∈ requiredColumns.filter (fun c => decide (c ∈ csv.cols))) := by
      rcases hmiss with h | h <;> simp [List.mem_filter, h]
    have herr : read_autosleep_data parse csv
        = Except.error "required column Bedtime or Wakeup is missing from the CSV file".data := by
      unfold read_autosleep_data
      rw [if_neg hguard]
    have hp : processFiles parse csv lines
        = Except.error "required column Bedtime or Wakeup is missing from the CSV file".data := by
      unfold processFiles
      rw [herr]
    exact ⟨⟨_, herr⟩, ⟨_, hp⟩⟩
  · intro hlen
    have herr2 : parse_hrv_file lines
        = Except.error "HRV file format is invalid: header line is missing".data := by
      rcases lines with _ | ⟨a, _ | ⟨b, t⟩⟩
      · rfl
      · rfl
      · exact absurd hlen (by simp)
    refine ⟨⟨_, herr2⟩, ?_⟩
    unfold processFiles
    cases hre : read_autosleep_data parse csv with
    | error e => exact ⟨e, rfl⟩
    | ok sleep => rw [herr2]; exact ⟨_, rfl⟩

/-- Witness for C9: a column-free sleep CSV and an empty HRV file both
abort the pipeline. -/
theorem c9_fatal_load_errors_witness :
    ((∃ e, read_autosleep_data (fun _ => none) ⟨[], []⟩ = Except.error e)
      ∧ (∃ e, processFiles (fun _ => none) ⟨[], []⟩ [] = Except.error e))
    ∧ ((∃ e, parse_hrv_file [] = Except.error e)
      ∧ (∃ e, processFiles (fun _ => none) ⟨[], []⟩ [] = Except.error e)) :=
  ⟨(c9_fatal_load_errors (fun _ => none) ⟨[], []⟩ []).1 (Or.inl (by decide)),
   (c9_fatal_load_errors (fun _ => none) ⟨[], []⟩ []).2 (by decide)⟩

/-- C5: every emitted row's HRV value is computed from the reading set
looked up under the calendar date of the session's wake timestamp
(formatted `YYYY/MM/DD`), and the row's `Date` field is that same
wake-date string — both derived from the wake timestamp, never the
bedtime. -/
theorem c5_wake_date_alignment (parse : Str → Option DateTime) (cols : List Str)
    (rows : List (List Str)) (hrv : List (Str × List (Str × ℚ))) (row : ResultRow)
    (hmem : row ∈ process_sleep_hrv_data (read_autosleep_rows parse cols rows) hrv) :
    ∃ (w : DateTime) (nextB : Option DateTime),
      row.DaytimeHrvAvg
        = calculate_daytime_hrv_integral (lookupDate hrv (formatYMD w)) (some w) nextB
      ∧ row.Date = formatYMD w
      ∧ ∃ raw ∈ rows, parse ((getCell cols raw wakeupCol).getD []) = some w := by
  induction rows with
  | nil => exact absurd hmem (by simp [read_autosleep_rows, process_sleep_hrv_data])
  | cons raw rest ih =>
    simp only [read_autosleep_rows, List.map_cons, process_sleep_hrv_data,
      mkSleepRecord] at hmem
    rcases hpb : parse ((getCell cols raw bedtimeCol).getD []) with _ | b <;>
      rcases hpw : parse ((getCell cols raw wakeupCol).getD []) with _ | w <;>
      rw [hpb, hpw] at hmem
    · obtain ⟨w', nextB, h1, h2, raw', hraw', h3⟩ := ih hmem
      exact ⟨w', nextB, h1, h2, raw', List.mem_cons_of_mem _ hraw', h3⟩
    · obtain ⟨w', nextB, h1, h2, raw', hraw', h3⟩ := ih hmem
      exact ⟨w', nextB, h1, h2, raw', List.mem_cons_of_mem _ hraw', h3⟩
    · obtain ⟨w', nextB, h1, h2, raw', hraw', h3⟩ := ih hmem
      exact ⟨w', nextB, h1, h2, raw', List.mem_cons_of_mem _ hraw', h3⟩
    · rcases List.mem_cons.mp hmem with hrow | htail
      · subst hrow
        refine ⟨w, _, rfl, ?_, raw, List.mem_cons_self _ _, hpw⟩
        simp [emitRow, mkSleepRecord, hpw, get_date_string]
      · obtain ⟨w', nextB, h1, h2, raw', hraw', h3⟩ := ih htail
        exact ⟨w', nextB, h1, h2, raw', List.mem_cons_of_mem _ hraw', h3⟩

/-- Witness for C5: one sleep row whose bedtime parses to the evening of
2025-03-01 and whose wake parses to the morning of 2025-03-02; the
emitted row is keyed and dated by the wake date. -/
theorem c5_wake_date_alignment_witness :
    ∃ (w : DateTime) (nextB : Option DateTime),
      (⟨"2025/03/02".data, "B".data, "W".data, none, "N/A".data,
          "N/A".data⟩ : ResultRow).DaytimeHrvAvg
        = calculate_daytime_hrv_integral (lookupDate [] (formatYMD w)) (some w) nextB
      ∧ (⟨"2025/03/02".data, "B".data, "W".data, none, "N/A".data,
          "N/A".data⟩ : ResultRow).Date = formatYMD w
      ∧ ∃ raw ∈ [["B".data, "W".data]],
          (fun s => if s = "B".data then some (⟨2025, 3, 1, 22, 0, 0⟩ : DateTime)
            else if s = "W".data then some ⟨2025, 3, 2, 6, 30, 0⟩ else none)
            ((getCell [bedtimeCol, wakeupCol] raw wakeupCol).getD []) = some w :=
  c5_wake_date_alignment
    (fun s => if s = "B".data then some (⟨2025, 3, 1, 22, 0, 0⟩ : DateTime)
      else if s = "W".data then some ⟨2025, 3, 2, 6, 30, 0⟩ else none)
    [bedtimeCol, wakeupCol] [["B".data, "W".data]] []
    ⟨"2025/03/02".data, "B".data, "W".data, none, "N/A".data, "N/A".data⟩
    (by decide)

/-- A list is a Boolean prefix of itself followed by anything. -/
theorem isPrefixOf_self_append (l t : Str) : List.isPrefixOf l (l ++ t) = true := by
  induction l with
  | nil => simp [List.isPrefixOf]
  | cons c l ih => simp [List.isPrefixOf_cons₂, ih]

/-- The split scan ignores the exact fuel once it covers the input length. -/
theorem splitSepAux_fuel_irrel (sep : Str) :
    ∀ (fuel fuel' : Nat) (l acc : Str), l.length ≤ fuel → l.length ≤ fuel' →
      splitSepAux sep fuel l acc = splitSepAux sep fuel' l acc := by
  intro fuel
  induction fuel with
  | zero =>
    intro fuel' l acc h _
    cases l with
    | nil => cases fuel' <;> rfl
    | cons c rest => simp at h
  | succ f ih =>
    intro fuel' l acc h h'
    cases l with
    | nil => cases fuel' <;> rfl
    | cons c rest =>
      cases fuel' with
      | zero => simp at h'
      | succ f' =>
        simp only [splitSepAux]
        by_cases hp : List.isPrefixOf sep (c :: rest) = true
        · rw [if_pos hp, if_pos hp]
          have hlen : (rest.drop (sep.length - 1)).length ≤ rest.length := by
            simp [List.length_drop]
          simp only [List.length_cons] at h h'
          rw [ih f' (rest.drop (sep.length - 1)) [] (by omega) (by omega)]
        · rw [if_neg hp, if_neg hp]
          simp only [List.length_cons] at h h'
          rw [ih f' rest (c :: acc) (by omega) (by omega)]

/-- A chunk containing no occurrence of the separator's first character
is emitted whole. -/
theorem splitSepAux_not_mem (c0 : Char) (sep' : Str) :
    ∀ (l : Str) (fuel : Nat) (acc : Str), l.length ≤ fuel → c0 ∉ l →
      splitSepAux (c0 :: sep') fuel l acc = [acc.reverse ++ l] := by
  intro l
  induction l with
  | nil => intro fuel acc _ _; cases fuel <;> simp [splitSepAux]
  | cons c rest ih =>
    intro fuel acc h hm
    cases fuel with
    | zero => simp at h
    | succ f =>
      have hc : ¬(c0 = c) := fun he => hm (he ▸ List.mem_cons_self c rest)
      simp only [splitSepAux]
      rw [if_neg (by simp [List.isPrefixOf_cons₂, hc])]
      rw [ih f (c :: acc) (by simp only [List.length_cons] at h; omega)
        (fun hmem => hm (List.mem_cons_of_mem _ hmem))]
      simp

/-- Splitting a text of the form `l ++ sep ++ t` (with no separator start
inside `l`) emits `l` and continues on `t`. -/
theorem splitSepAux_boundary (c0 : Char) (sep' t : Str) :
    ∀ (l : Str) (fuel : Nat) (acc : Str),
      (l ++ (c0 :: sep') ++ t).length ≤ fuel → c0 ∉ l →
      splitSepAux (c0 :: sep') fuel (l ++ (c0 :: sep') ++ t) acc
        = (acc.reverse ++ l) :: splitSepAux (c0 :: sep') t.length t [] := by
  intro l
  induction l with
  | nil =>
    intro fuel acc h _
    simp only [List.nil_append] at h ⊢
    cases fuel with
    | zero => simp at h
    | succ f =>
      rw [show (c0 :: sep') ++ t = c0 :: (sep' ++ t) from rfl]
      simp only [splitSepAux]
      rw [if_pos (by
        rw [show c0 :: (sep' ++ t) = (c0 :: sep') ++ t from rfl]
        exact isPrefixOf_self_append _ _)]
      rw [show (c0 :: sep').length - 1 = sep'.length by simp]
      rw [List.drop_left]
      rw [splitSepAux_fuel_irrel (c0 :: sep') f t.length t []
        (by simp [List.length_cons, List.length_append] at h; omega) (le_refl _)]
      simp
  | cons c l' ih =>
    intro fuel acc h hm
    cases fuel with
    | zero => simp at h
    | succ f =>
      have hc : ¬(c0 = c) := fun he => hm (he ▸ List.mem_cons_self c l')
      rw [show ((c :: l') ++ (c0 :: sep') ++ t) = c :: (l' ++ (c0 :: sep') ++ t)
        from rfl]
      simp only [splitSepAux]
      rw [if_neg (by simp [List.isPrefixOf_cons₂, hc])]
      rw [ih f (c :: acc)
        (by simp only [List.cons_append, List.length_cons] at h; omega)
        (fun hmem => hm (List.mem_cons_of_mem _ hmem))]
      simp

/-- Python's `"A - B".split(" - ")` yields `[A, B]` when neither side
contains a space. -/
theorem splitSep_rangeSep_pair (A B : Str) (hA : ' ' ∉ A) (hB : ' ' ∉ B) :
    splitSep rangeSep (A ++ rangeSep ++ B) = [A, B] := by
  unfold splitSep
  rw [show rangeSep = ' ' :: ['-', ' '] from rfl]
  rw [splitSepAux_boundary ' ' ['-', ' '] B A _ [] (le_refl _) hA]
  rw [splitSepAux_not_mem ' ' ['-', ' '] B B.length [] (le_refl _) hB]
  simp

/-- A text with an embedded separator passes the substring test. -/
theorem hasSub_append_sep (c0 : Char) (sep' t : Str) : ∀ l : Str,
    hasSub (c0 :: sep') (l ++ (c0 :: sep') ++ t) = true := by
  intro l
  induction l with
  | nil =>
    simp only [List.nil_append]
    rw [show (c0 :: sep') ++ t = c0 :: (sep' ++ t) from rfl]
    simp only [hasSub]
    rw [show c0 :: (sep' ++ t) = (c0 :: sep') ++ t from rfl,
      isPrefixOf_self_append]
    rfl
  | cons c l' ih =>
    rw [show ((c :: l') ++ (c0 :: sep') ++ t) = c :: (l' ++ (c0 :: sep') ++ t)
      from rfl]
    simp only [hasSub, ih, Bool.or_true]

/-- A text without the separator's first character fails the substring
test. -/
theorem hasSub_not_mem (c0 : Char) (sep' : Str) : ∀ l : Str, c0 ∉ l →
    hasSub (c0 :: sep') l = false := by
  intro l
  induction l with
  | nil => intro _; rfl
  | cons c rest ih =>
    intro hm
    have hc : ¬(c0 = c) := fun he => hm (he ▸ List.mem_cons_self c rest)
    simp only [hasSub]
    rw [ih (fun hmem => hm (List.mem_cons_of_mem _ hmem))]
    simp [List.isPrefixOf_cons₂, hc]

/-- A string is its own sign-stripped body, or a sign character followed
by it. -/
theorem splitSign_cases (s : Str) :
    (splitSign s).2 = s ∨ ∃ c0, (c0 = '-' ∨ c0 = '+') ∧ s = c0 :: (splitSign s).2 := by
  rcases s with _ | ⟨c, r⟩
  · left; rfl
  · unfold splitSign
    by_cases h1 : c = '-'
    · right; exact ⟨c, Or.inl h1, by simp [h1]⟩
    · by_cases h2 : c = '+'
      · right; exact ⟨c, Or.inr h2, by simp [h1, h2]⟩
      · left; simp [h1, h2]

/-- Every character of a successfully parsed numeric literal is a digit,
a sign, or the decimal point. -/
theorem parseFloat_mem_chars (s : Str) (v : ℚ) (h : parseFloat s = some v) :
    ∀ c ∈ s, c.isDigit = true ∨ c = '-' ∨ c = '+' ∨ c = '.' := by
  have hbody : ∀ c ∈ (splitSign s).2, c.isDigit = true ∨ c = '.' := by
    intro c hc
    simp only [parseFloat] at h
    rcases hd : (splitSign s).2.dropWhile Char.isDigit with _ | ⟨cd, r3⟩ <;>
      (rw [hd] at h; dsimp only at h)
    · left
      have hsplit := List.takeWhile_append_dropWhile Char.isDigit (splitSign s).2
      rw [hd, List.append_nil] at hsplit
      rw [← hsplit] at hc
      exact List.mem_takeWhile_imp hc
    · by_cases hdot : cd = '.'
      · rw [if_pos hdot] at h
        split_ifs at h with hcond
        · have hr3 : r3.dropWhile Char.isDigit = [] := by
            have h1 := (Bool.and_eq_true _ _).mp hcond |>.1
            exact List.isEmpty_iff.mp h1
          have hsplit := List.takeWhile_append_dropWhile Char.isDigit (splitSign s).2
          rw [hd] at hsplit
          rw [← hsplit] at hc
          rcases List.mem_append.mp hc with h1 | h1
          · exact Or.inl (List.mem_takeWhile_imp h1)
          · rcases List.mem_cons.mp h1 with rfl | h2
            · exact Or.inr hdot
            · left
              have hr3eq : r3.takeWhile Char.isDigit = r3 := by
                have h3 := List.takeWhile_append_dropWhile Char.isDigit r3
                rw [hr3, List.append_nil] at h3
                exact h3
              rw [← hr3eq] at h2
              exact List.mem_takeWhile_imp h2
      · rw [if_neg hdot] at h
        exact absurd h (by simp)
  intro c hc
  rcases splitSign_cases s with hcase | ⟨c0, hc0, hcase⟩
  · exact (hbody c (by rw [hcase]; exact hc)).elim Or.inl
      (fun hdot => Or.inr (Or.inr (Or.inr hdot)))
  · rw [hcase] at hc
    rcases List.mem_cons.mp hc with rfl | hmem
    · rcases hc0 with rfl | rfl
      · exact Or.inr (Or.inl rfl)
      · exact Or.inr (Or.inr (Or.inl rfl))
    · exact (hbody c hmem).elim Or.inl
        (fun hdot => Or.inr (Or.inr (Or.inr hdot)))

/-- A successfully parsed numeric literal contains no space. -/
theorem parseFloat_no_space (s : Str) (v : ℚ) (h : parseFloat s = some v) :
    ' ' ∉ s := by
  intro hmem
  rcases parseFloat_mem_chars s v h ' ' hmem with h1 | h1 | h1 | h1 <;> simp at h1

/-- Stripping keeps a list nonempty when it holds any non-whitespace
character. -/
theorem pyStrip_isEmpty_false (l : Str) (c : Char) (hc : c ∈ l)
    (hw : c.isWhitespace = false) : (pyStrip l).isEmpty = false := by
  cases he : (pyStrip l).isEmpty
  · rfl
  · exfalso
    have hnil : pyStrip l = [] := List.isEmpty_iff.mp he
    unfold pyStrip at hnil
    rw [List.reverse_eq_nil_iff, List.dropWhile_eq_nil_iff] at hnil
    have hall : ∀ x ∈ l.dropWhile Char.isWhitespace, x.isWhitespace = true := by
      intro x hx
      exact hnil x (List.mem_reverse.mpr hx)
    have hsplit := List.takeWhile_append_dropWhile Char.isWhitespace l
    rw [← hsplit] at hc
    rcases List.mem_append.mp hc with h1 | h1
    · simp [List.mem_takeWhile_imp h1] at hw
    · simp [hall c h1] at hw

/-- Digits are not whitespace. -/
theorem char_isDigit_not_ws (c : Char) (h : c.isDigit = true) :
    c.isWhitespace = false := by
  rcases eq_or_ne c ' ' with rfl | h1
  · exact absurd h (by decide)
  rcases eq_or_ne c '\t' with rfl | h2
  · exact absurd h (by decide)
  rcases eq_or_ne c '\r' with rfl | h3
  · exact absurd h (by decide)
  rcases eq_or_ne c '\n' with rfl | h4
  · exact absurd h (by decide)
  simp [Char.isWhitespace, h1, h2, h3, h4]

/-- A successfully parsed numeric literal does not strip to the empty
string. -/
theorem parseFloat_strip_ne (s : Str) (v : ℚ) (h : parseFloat s = some v) :
    (pyStrip s).isEmpty = false := by
  rcases s with _ | ⟨c, r⟩
  · exact absurd h (by simp [parseFloat, splitSign])
  · apply pyStrip_isEmpty_false (c :: r) c (List.mem_cons_self _ _)
    rcases parseFloat_mem_chars _ v h c (List.mem_cons_self _ _) with h1 | rfl | rfl | rfl
    · exact char_isDigit_not_ws c h1
    · decide
    · decide
    · decide

/-- A cell that parses as a bare number is stored as that number: it
cannot contain the range separator. -/
theorem parseHrvCell_bare (s : Str) (v : ℚ) (h : parseFloat s = some v) :
    parseHrvCell s = some v := by
  unfold parseHrvCell
  have hsub : hasSub rangeSep s = false :=
    hasSub_not_mem ' ' ['-', ' '] s (parseFloat_no_space s v h)
  rw [hsub]
  simp [h]

/-- A range cell `A - B` with both sides numeric is stored as the
midpoint `(A + B) / 2`. -/
theorem parseHrvCell_range (A B : Str) (a b : ℚ)
    (hA : parseFloat A = some a) (hB : parseFloat B = some b) :
    parseHrvCell (A ++ rangeSep ++ B) = some ((a + b) / 2) := by
  unfold parseHrvCell
  have hsub : hasSub rangeSep (A ++ rangeSep ++ B) = true :=
    hasSub_append_sep ' ' ['-', ' '] B A
  rw [hsub]
  have hsplit : splitSep rangeSep (A ++ rangeSep ++ B) = [A, B] :=
    splitSep_rangeSep_pair A B (parseFloat_no_space A a hA)
      (parseFloat_no_space B b hB)
  rw [if_pos rfl, hsplit]
  dsimp only
  rw [hA, hB]

/-- The row dict built by `parse_hrv_file` depends on each cell only
through its parsed value and its stripped emptiness. -/
theorem buildDateHrvAux_congr (slots : List Str) (x y : Str)
    (hp : parseHrvCell x = parseHrvCell y)
    (hs : (pyStrip x).isEmpty = (pyStrip y).isEmpty) :
    ∀ (vs1 : List Str) (j : Nat) (vs2 : List Str) (d : List (Str × ℚ)),
      buildDateHrvAux slots j (vs1 ++ x :: vs2) d
        = buildDateHrvAux slots j (vs1 ++ y :: vs2) d := by
  intro vs1
  induction vs1 with
  | nil =>
    intro j vs2 d
    simp only [List.nil_append, buildDateHrvAux]
    rw [hp, hs]
  | cons v vs1 ih =>
    intro j vs2 d
    simp only [List.cons_append, buildDateHrvAux, List.append_eq]
    rw [ih]

/-- C7: a range cell with both sides parsing stores the midpoint
`(A + B) / 2`; re-expressing a bare reading `v` as the range `v - v`
parses to the same value, so the built reading set and hence
`calculate_daytime_hrv_integral`'s result are unchanged. -/
theorem c7_range_midpoint (A B : Str) (a b : ℚ) (vs1 vs2 slots : List Str)
    (wdt next : Option DateTime)
    (hA : parseFloat A = some a) (hB : parseFloat B = some b) :
    parseHrvCell (A ++ rangeSep ++ B) = some ((a + b) / 2)
    ∧ parseHrvCell A = some a
    ∧ parseHrvCell (A ++ rangeSep ++ A) = some a
    ∧ calculate_daytime_hrv_integral (buildDateHrv slots (vs1 ++ A :: vs2)) wdt next
      = calculate_daytime_hrv_integral
          (buildDateHrv slots (vs1 ++ (A ++ rangeSep ++ A) :: vs2)) wdt next := by
  have h3 : parseHrvCell (A ++ rangeSep ++ A) = some a := by
    rw [parseHrvCell_range A A a a hA hA]
    have : (a + a) / 2 = a := by ring
    rw [this]
  have h4 : buildDateHrv slots (vs1 ++ A :: vs2)
      = buildDateHrv slots (vs1 ++ (A ++ rangeSep ++ A) :: vs2) := by
    unfold buildDateHrv
    apply buildDateHrvAux_congr
    · rw [parseHrvCell_bare A a hA, h3]
    · rw [parseFloat_strip_ne A a hA]
      rw [pyStrip_isEmpty_false _ '-' (by simp [rangeSep]) (by decide)]
  exact ⟨parseHrvCell_range A B a b hA hB, parseHrvCell_bare A a hA, h3,
    by rw [h4]⟩

/-- Concrete evaluation: the cell `20` parses to 20. -/
theorem parseFloat_eval_20 : parseFloat "20".data = some 20 := by
  have hsgn : splitSign "20".data = (1, "20".data) := by decide
  have ht : ("20".data).takeWhile Char.isDigit = "20".data := by decide
  have hd : ("20".data).dropWhile Char.isDigit = [] := by decide
  have hn : natOfDigits "20".data = 20 := by decide
  simp only [parseFloat, hsgn, ht, hd, hn]
  norm_num

/-- Concrete evaluation: the cell `40` parses to 40. -/
theorem parseFloat_eval_40 : parseFloat "40".data = some 40 := by
  have hsgn : splitSign "40".data = (1, "40".data) := by decide
  have ht : ("40".data).takeWhile Char.isDigit = "40".data := by decide
  have hd : ("40".data).dropWhile Char.isDigit = [] := by decide
  have hn : natOfDigits "40".data = 40 := by decide
  simp only [parseFloat, hsgn, ht, hd, hn]
  norm_num

/-- Witness for C7 at the cells `20` and `40`. -/
theorem c7_range_midpoint_witness :
    parseHrvCell ("20".data ++ rangeSep ++ "40".data) = some ((20 + 40) / 2)
    ∧ parseHrvCell "20".data = some 20
    ∧ parseHrvCell ("20".data ++ rangeSep ++ "20".data) = some 20
    ∧ calculate_daytime_hrv_integral
        (buildDateHrv ["6 AM".data] (["x".data] ++ "20".data :: []))
        (some ⟨2025, 3, 2, 6, 0, 0⟩) none
      = calculate_daytime_hrv_integral
          (buildDateHrv ["6 AM".data]
            (["x".data] ++ ("20".data ++ rangeSep ++ "20".data) :: []))
          (some ⟨2025, 3, 2, 6, 0, 0⟩) none :=
  c7_range_midpoint "20".data "40".data 20 40 ["x".data] [] ["6 AM".data]
    (some ⟨2025, 3, 2, 6, 0, 0⟩) none parseFloat_eval_20 parseFloat_eval_40
